import Mathlib

/-!
Verification of the face-similarity search and matching pipeline of the
`face-search-backend` repository.

Descriptor vectors (numpy float arrays in the source) are modelled as lists
of real numbers.  Database integer ids are modelled as `Int`.  The external
collaborators (MediaPipe, SQLAlchemy session/commit, MinIO, Celery) are
modelled at their interface, exactly as the Python code drives them:
the extractor's mesh output is a parameter, a commit either atomically
applies all pending changes or fails (the relational store's transaction
is the unit of atomicity), and `db.rollback()` discards pending changes.
-/

namespace FaceSearch

/-! ### Similarity engine: `app/services/face_service.py` -/

/-- `np.dot` of two equal-length 1-d arrays: sum of pointwise products. -/
def dot (a b : List ℝ) : ℝ := (List.zipWith (fun x y => x * y) a b).sum

/-- `np.linalg.norm`: Euclidean norm, the square root of the dot product
of a vector with itself. -/
noncomputable def norm2 (a : List ℝ) : ℝ := Real.sqrt (dot a a)

/-- `FaceService.calculate_face_distance` (face_service.py lines 142-163).
Mirrors the source exactly: `np.dot` raises on shape mismatch, the
`except` clause turns that into `1.0`; zero norms short-circuit to `1.0`;
otherwise the cosine distance `1 - dot/(norm1*norm2)` is returned. -/
noncomputable def calculate_face_distance (encoding1 encoding2 : List ℝ) : ℝ :=
  if encoding1.length ≠ encoding2.length then 1
  else
    let dot_product := dot encoding1 encoding2
    let norm1 := norm2 encoding1
    let norm2' := norm2 encoding2
    if norm1 = 0 ∨ norm2' = 0 then 1
    else 1 - dot_product / (norm1 * norm2')

/-- `FaceService.compare_single_face` (face_service.py lines 117-126):
`distance <= tolerance`. -/
def compare_single_face (query_encoding stored_encoding : List ℝ)
    (tolerance : ℝ) : Prop :=
  calculate_face_distance query_encoding stored_encoding ≤ tolerance

noncomputable instance (q s : List ℝ) (t : ℝ) :
    Decidable (compare_single_face q s t) :=
  inferInstanceAs (Decidable (_ ≤ _))

/-- `FaceService.process_search_image` (face_service.py lines 185-193):
`(False, None)` on an empty extraction, otherwise the first encoding.
The extraction result is the parameter. -/
def process_search_image (encodings : List (List ℝ)) : Option (List ℝ) :=
  match encodings with
  | [] => none
  | e :: _ => some e

/-! ### Descriptor extractor: `FaceService._generate_face_embedding`
(face_service.py lines 83-115).  The MediaPipe face-mesh output for the
face region is the parameter: `none` when `results.multi_face_landmarks`
is empty (or the region is empty), otherwise the first face's landmark
list. -/

/-- One MediaPipe face-mesh landmark. -/
structure Landmark where
  x : ℝ
  y : ℝ
  z : ℝ

/-- The flattening loop `landmarks.extend([landmark.x, landmark.y,
landmark.z])`. -/
def landmarksToList : List Landmark → List ℝ
  | [] => []
  | lm :: rest => lm.x :: lm.y :: lm.z :: landmarksToList rest

/-- `_generate_face_embedding`: flatten the landmark triples, then divide
by the Euclidean norm when it is positive. -/
noncomputable def generate_face_embedding
    (multi_face_landmarks : Option (List Landmark)) : Option (List ℝ) :=
  match multi_face_landmarks with
  | none => none
  | some face_landmarks =>
    if norm2 (landmarksToList face_landmarks) > 0 then
      some ((landmarksToList face_landmarks).map
        (fun v => v / norm2 (landmarksToList face_landmarks)))
    else some (landmarksToList face_landmarks)

/-- The dimensionality declared by the `FaceVector.encoding` column:
`Vector(128)` in `app/models/image.py` line 25. -/
def faceVectorDim : ℕ := 128

/-! ### Basic facts about `dot` and `norm2` -/

theorem dot_nil_left (b : List ℝ) : dot [] b = 0 := rfl

theorem dot_cons_cons (x y : ℝ) (a b : List ℝ) :
    dot (x :: a) (y :: b) = x * y + dot a b := by
  simp [dot, List.zipWith, List.sum_cons]

theorem dot_self_nonneg (a : List ℝ) : 0 ≤ dot a a := by
  induction a with
  | nil => simp [dot]
  | cons x xs ih =>
    rw [dot_cons_cons]
    exact add_nonneg (mul_self_nonneg x) ih

theorem dot_self_eq_zero_iff (a : List ℝ) :
    dot a a = 0 ↔ ∀ x ∈ a, x = 0 := by
  induction a with
  | nil => simp [dot]
  | cons x xs ih =>
    rw [dot_cons_cons]
    constructor
    · intro h
      have hx : 0 ≤ x * x := mul_self_nonneg x
      have hxs : 0 ≤ dot xs xs := dot_self_nonneg xs
      have h1 : x * x = 0 := by linarith
      have h2 : dot xs xs = 0 := by linarith
      intro y hy
      rcases List.mem_cons.mp hy with hyx | hyxs
      · subst hyx; exact mul_self_eq_zero.mp h1
      · exact (ih.mp h2) y hyxs
    · intro h
      have hx : x = 0 := h x (List.mem_cons_self x xs)
      have hxs : dot xs xs = 0 := ih.mpr (fun y hy => h y (List.mem_cons_of_mem x hy))
      rw [hx, hxs]; ring

theorem norm2_nonneg (a : List ℝ) : 0 ≤ norm2 a := Real.sqrt_nonneg _

theorem norm2_eq_zero_iff (a : List ℝ) :
    norm2 a = 0 ↔ ∀ x ∈ a, x = 0 := by
  unfold norm2
  rw [Real.sqrt_eq_zero']
  constructor
  · intro h
    exact (dot_self_eq_zero_iff a).mp (le_antisymm h (dot_self_nonneg a))
  · intro h
    exact le_of_eq ((dot_self_eq_zero_iff a).mpr h)

theorem dot_map_div (a : List ℝ) (n : ℝ) :
    dot (a.map (fun v => v / n)) (a.map (fun v => v / n)) = dot a a / (n * n) := by
  induction a with
  | nil => simp [dot]
  | cons x xs ih =>
    simp only [List.map_cons]
    rw [dot_cons_cons, dot_cons_cons, ih]
    rw [div_mul_div_comm, div_add_div_same]

theorem norm2_map_div_self (a : List ℝ) (h : 0 < norm2 a) :
    norm2 (a.map (fun v => v / norm2 a)) = 1 := by
  have hs : 0 < dot a a := by
    by_contra hle
    push_neg at hle
    have : dot a a = 0 := le_antisymm hle (dot_self_nonneg a)
    have hz : norm2 a = 0 := by
      unfold norm2; rw [this, Real.sqrt_zero]
    rw [hz] at h; exact lt_irrefl 0 h
  unfold norm2 at *
  rw [dot_map_div]
  rw [Real.mul_self_sqrt (le_of_lt hs)]
  rw [div_self (ne_of_gt hs), Real.sqrt_one]

/-! ### Data model: `app/models/image.py` -/

/-- A row of the `face_vectors` table.  The auto-increment primary key is
assigned by the database and never read by the pipeline, so it is not
modelled. -/
structure FaceVector where
  image_id : ℤ
  face_index : ℤ
  encoding : List ℝ

/-- A row of the `event_images` table.  `face_encodings` is the optional
cached serialized descriptor list (`Text` column, `none` until written). -/
structure EventImage where
  id : ℤ
  filename : String
  minio_path : String
  thumbnail_path : String
  face_count : ℤ
  face_encodings : Option (List (List ℝ))

/-- The relational store: the two tables. -/
structure DB where
  images : List EventImage
  vectors : List FaceVector

/-! ### Search orchestrator: `search_by_face` in `app/api/images.py`
(lines 97-169).  The query extraction result is a parameter (the
extractor is the external MediaPipe capability). -/

/-- One entry of the `matches` list built during the scan. -/
structure MatchRec where
  image_id : ℤ
  distance : ℝ

/-- The scan loop over `db.query(FaceVector).all()`: keep a record with
its distance whenever `compare_single_face` holds. -/
noncomputable def scanMatches (query_encoding : List ℝ) (tolerance : ℝ) :
    List FaceVector → List MatchRec
  | [] => []
  | v :: rest =>
    if compare_single_face query_encoding v.encoding tolerance then
      ⟨v.image_id, calculate_face_distance query_encoding v.encoding⟩ ::
        scanMatches query_encoding tolerance rest
    else scanMatches query_encoding tolerance rest

/-- The ordering key of `matches.sort(key=lambda x: x['distance'])`. -/
def byDistance (m1 m2 : MatchRec) : Prop := m1.distance ≤ m2.distance

noncomputable instance : DecidableRel byDistance :=
  fun m1 m2 => inferInstanceAs (Decidable (m1.distance ≤ m2.distance))

/-- Python's `list.sort` is a stable sort; `List.insertionSort` is the
stable sort available here (sortedness and stability are proved below,
they are not assumed). -/
noncomputable def sortMatches (matchList : List MatchRec) : List MatchRec :=
  List.insertionSort byDistance matchList

/-- The `seen`-set deduplication loop of `search_by_face`
(images.py lines 141-146), preserving first occurrences. -/
def dedupFirstAux (seen : List ℤ) : List ℤ → List ℤ
  | [] => []
  | x :: xs =>
    if x ∈ seen then dedupFirstAux seen xs
    else x :: dedupFirstAux (x :: seen) xs

def dedupFirst (l : List ℤ) : List ℤ := dedupFirstAux [] l

/-- The ordered list of image identifiers produced by `search_by_face`:
scan, stable sort by distance, project to image ids, deduplicate, then
resolve against the `event_images` table dropping unresolvable ids
(`if img_id in image_dict`). -/
noncomputable def search_result_ids (query_encoding : List ℝ) (tolerance : ℝ)
    (vectors : List FaceVector) (images : List EventImage) : List ℤ :=
  let matchList := scanMatches query_encoding tolerance vectors
  let matching_image_ids := (sortMatches matchList).map MatchRec.image_id
  let unique_ids := dedupFirst matching_image_ids
  unique_ids.filter (fun i => (images.map EventImage.id).contains i)

/-- The distance attached to the first (best, once sorted) match record
carrying a given image id. -/
def firstDist (ms : List MatchRec) (i : ℤ) : Option ℝ :=
  (ms.find? (fun m => m.image_id == i)).map MatchRec.distance

/-- Outcome of the search endpoint. -/
inductive SearchOutcome where
  | httpError (status_code : ℕ)
  | ok (ids : List ℤ)
deriving DecidableEq

/-- `search_by_face` (images.py lines 97-169): extract the query
descriptor; on failure raise HTTP 400 before any store access, otherwise
run the orchestrator. -/
noncomputable def search_by_face (encodings : List (List ℝ)) (tolerance : ℝ)
    (vectors : List FaceVector) (images : List EventImage) : SearchOutcome :=
  match process_search_image encodings with
  | none => .httpError 400
  | some query_encoding =>
    .ok (search_result_ids query_encoding tolerance vectors images)

/-! ### Ingestion pipeline -/

/-- The `for i, encoding in enumerate(encodings)` loop creating
`FaceVector` rows with sequential face indices. -/
def mkFaceVectors (image_id : ℤ) : ℕ → List (List ℝ) → List FaceVector
  | _, [] => []
  | i, e :: rest => ⟨image_id, (i : ℤ), e⟩ :: mkFaceVectors image_id (i + 1) rest

/-- Result statuses returned by `process_image_task`. -/
inductive TaskResult where
  | notFound
  | success (faces_found : ℕ)
  | noFaces
  | error
deriving DecidableEq

/-- `process_image_task` (`app/workers/tasks.py` lines 35-101).  The
extraction result is the parameter `encodings`; `commitOk` models whether
`db.commit()` succeeds.  A successful commit atomically applies every
pending change of the session; on failure the `except` handler calls
`db.rollback()`, discarding all pending changes. -/
def process_image_task (db : DB) (image_id : ℤ)
    (encodings : List (List ℝ)) (commitOk : Bool) : TaskResult × DB :=
  match db.images.find? (fun img => img.id == image_id) with
  | none => (.notFound, db)
  | some _ =>
    match encodings with
    | [] =>
      let pending : DB :=
        { db with
          images := db.images.map (fun img =>
            if img.id = image_id then
              { img with face_count := 0, face_encodings := some [] }
            else img) }
      if commitOk then (.noFaces, pending) else (.error, db)
    | _ :: _ =>
      let pending : DB :=
        { images := db.images.map (fun img =>
            if img.id = image_id then
              { img with face_count := (encodings.length : ℤ),
                         face_encodings := some encodings }
            else img),
          vectors := db.vectors ++ mkFaceVectors image_id 0 encodings }
      if commitOk then (.success encodings.length, pending) else (.error, db)

/-- The stored face count of an image, read back from the store. -/
def faceCountOf (db : DB) (image_id : ℤ) : Option ℤ :=
  (db.images.find? (fun img => img.id == image_id)).map EventImage.face_count

/-- The descriptor rows owned by an image. -/
def vectorsFor (db : DB) (image_id : ℤ) : List FaceVector :=
  db.vectors.filter (fun v => v.image_id == image_id)

/-! ### Upload endpoint: `upload_images` in `app/api/images.py`
(lines 26-95).  Each file carries raw bytes of an abstract type `β`; the
extractor is the function `extract : β → List (List ℝ)` (its MediaPipe
internals are external).  `faceOk` models whether the face-processing
`try` block's `db.commit()` succeeds for a given file; the surrounding
`except` isolates that failure.  The image-record creation commit
(lines 43-51) sits OUTSIDE that `try`: it raises when the `filename`
unique constraint is violated, and the exception propagates out of the
endpoint. -/

/-- One file of the multipart batch. -/
structure UploadFile (β : Type) where
  filename : String
  data : β

/-- The per-file `status` string of the response. -/
inductive UploadStatus where
  | processed (faces_found : ℕ)   -- "processed - N faces found"
  | noFacesFound                  -- "processed - no faces found"
  | processingFailed              -- "processing failed: ..."
deriving DecidableEq

/-- One entry of the `uploaded` response list. -/
structure UploadEntry where
  id : ℤ
  filename : String
  status : UploadStatus
  face_count : ℤ

/-- Auto-increment primary key assignment of the relational store. -/
def freshId (db : DB) : ℤ :=
  (db.images.map EventImage.id).foldr max 0 + 1

/-- The image-record creation commit (images.py lines 43-51): a fresh
row with `face_count = 0`.  Blob paths come from the storage collaborator
(whose fallbacks never raise) and carry no pipeline meaning. -/
def createImage {β : Type} (db : DB) (file : UploadFile β) : DB :=
  { db with images := db.images ++
      [{ id := freshId db, filename := file.filename, minio_path := "",
         thumbnail_path := "", face_count := 0, face_encodings := none }] }

/-- The synchronous face-processing block of `upload_images`
(lines 53-87): extract; when faces are found, add the vector rows, set
`face_count` and commit; a raised commit is caught by the `except` and
recorded as a failed status, leaving the committed store unchanged. -/
def inlineFaceProcessing (db : DB) (image_id : ℤ)
    (encodings : List (List ℝ)) (commitOk : Bool) : UploadStatus × DB :=
  match encodings with
  | [] => (.noFacesFound, db)
  | _ :: _ =>
    if commitOk then
      (.processed encodings.length,
       { images := db.images.map (fun img =>
           if img.id = image_id then
             { img with face_count := (encodings.length : ℤ) }
           else img),
         vectors := db.vectors ++ mkFaceVectors image_id 0 encodings })
    else (.processingFailed, db)

/-- One entry of the `uploaded` response list, as the endpoint builds it:
the reported `face_count` is the in-memory attribute, `N` after a
successful processing and the created `0` otherwise. -/
def uploadEntryOf (image_id : ℤ) (filename : String)
    (status : UploadStatus) : UploadEntry :=
  { id := image_id, filename := filename, status := status,
    face_count := match status with
                  | .processed n => (n : ℤ)
                  | _ => 0 }

/-- `upload_images`: per file, create the image record (aborting the
whole request when the filename unique constraint rejects the creation
commit), then run the isolated face-processing block, then recurse.  A
propagated exception discards the accumulated `uploaded` list (the HTTP
response is an error), while changes already committed for earlier files
persist in the store. -/
def upload_images {β : Type} (extract : β → List (List ℝ))
    (faceOk : β → Bool) (db : DB) :
    List (UploadFile β) → Except Unit (List UploadEntry) × DB
  | [] => (.ok [], db)
  | file :: rest =>
    if db.images.any (fun img => img.filename == file.filename) then
      (.error (), db)
    else
      match upload_images extract faceOk
          (inlineFaceProcessing (createImage db file) (freshId db)
            (extract file.data) (faceOk file.data)).2 rest with
      | (.ok entries, db') =>
        (.ok (uploadEntryOf (freshId db) file.filename
            (inlineFaceProcessing (createImage db file) (freshId db)
              (extract file.data) (faceOk file.data)).1 :: entries), db')
      | (.error e, db') => (.error e, db')

/-! ### Helper evaluations shared by witnesses -/

theorem dot_one_one : dot [1] [1] = 1 := by
  simp [dot]

theorem norm2_one : norm2 [1] = 1 := by
  unfold norm2
  rw [dot_one_one, Real.sqrt_one]

theorem calculate_face_distance_one_one : calculate_face_distance [1] [1] = 0 := by
  unfold calculate_face_distance
  rw [if_neg (by simp)]
  simp only [dot_one_one, norm2_one]
  rw [if_neg (by norm_num)]
  norm_num

/-! ### Lemmas about the search pipeline -/

theorem dedupFirstAux_cons_mem {x : ℤ} {seen l : List ℤ} (h : x ∈ seen) :
    dedupFirstAux seen (x :: l) = dedupFirstAux seen l := by
  simp [dedupFirstAux, h]

theorem dedupFirstAux_cons_not_mem {x : ℤ} {seen l : List ℤ} (h : x ∉ seen) :
    dedupFirstAux seen (x :: l) = x :: dedupFirstAux (x :: seen) l := by
  simp [dedupFirstAux, h]

theorem mem_dedupFirstAux {x : ℤ} :
    ∀ (l seen : List ℤ), x ∈ dedupFirstAux seen l ↔ x ∈ l ∧ x ∉ seen
  | [], seen => by simp [dedupFirstAux]
  | y :: ys, seen => by
    by_cases h : y ∈ seen
    · rw [dedupFirstAux_cons_mem h, mem_dedupFirstAux ys seen]
      constructor
      · rintro ⟨hx, hns⟩
        exact ⟨List.mem_cons_of_mem y hx, hns⟩
      · rintro ⟨hx, hns⟩
        rcases List.mem_cons.mp hx with rfl | hx'
        · exact absurd h hns
        · exact ⟨hx', hns⟩
    · rw [dedupFirstAux_cons_not_mem h, List.mem_cons,
        mem_dedupFirstAux ys (y :: seen)]
      constructor
      · rintro (rfl | ⟨hx, hns⟩)
        · exact ⟨List.mem_cons_self _ _, h⟩
        · exact ⟨List.mem_cons_of_mem y hx,
            fun hs => hns (List.mem_cons_of_mem y hs)⟩
      · rintro ⟨hx, hns⟩
        by_cases hxy : x = y
        · exact Or.inl hxy
        · rcases List.mem_cons.mp hx with rfl | hx'
          · exact absurd rfl hxy
          · exact Or.inr ⟨hx', fun hs => (List.mem_cons.mp hs).elim hxy hns⟩

theorem nodup_dedupFirstAux : ∀ (l seen : List ℤ), (dedupFirstAux seen l).Nodup
  | [], seen => by simp [dedupFirstAux]
  | y :: ys, seen => by
    by_cases h : y ∈ seen
    · rw [dedupFirstAux_cons_mem h]
      exact nodup_dedupFirstAux ys seen
    · rw [dedupFirstAux_cons_not_mem h]
      refine List.nodup_cons.mpr ⟨?_, nodup_dedupFirstAux ys (y :: seen)⟩
      intro hy
      exact ((mem_dedupFirstAux ys (y :: seen)).mp hy).2 (List.mem_cons_self y seen)

theorem mem_dedupFirst {x : ℤ} {l : List ℤ} : x ∈ dedupFirst l ↔ x ∈ l := by
  unfold dedupFirst
  rw [mem_dedupFirstAux]
  simp

theorem mem_scanMatches {q : List ℝ} {t : ℝ} {m : MatchRec} :
    ∀ {vs : List FaceVector},
      m ∈ scanMatches q t vs ↔
        ∃ v ∈ vs, compare_single_face q v.encoding t ∧
          m = ⟨v.image_id, calculate_face_distance q v.encoding⟩
  | [] => by simp [scanMatches]
  | v :: rest => by
    by_cases h : compare_single_face q v.encoding t
    · rw [scanMatches, if_pos h, List.mem_cons, mem_scanMatches]
      constructor
      · rintro (rfl | ⟨v', hv', hc', rfl⟩)
        · exact ⟨v, List.mem_cons_self v rest, h, rfl⟩
        · exact ⟨v', List.mem_cons_of_mem v hv', hc', rfl⟩
      · rintro ⟨v', hv', hc', rfl⟩
        rcases List.mem_cons.mp hv' with rfl | hv''
        · exact Or.inl rfl
        · exact Or.inr ⟨v', hv'', hc', rfl⟩
    · rw [scanMatches, if_neg h, mem_scanMatches]
      constructor
      · rintro ⟨v', hv', hc', rfl⟩
        exact ⟨v', List.mem_cons_of_mem v hv', hc', rfl⟩
      · rintro ⟨v', hv', hc', rfl⟩
        rcases List.mem_cons.mp hv' with rfl | hv''
        · exact absurd hc' h
        · exact ⟨v', hv'', hc', rfl⟩

theorem sorted_sortMatches (ms : List MatchRec) :
    (sortMatches ms).Sorted byDistance := by
  haveI : IsTotal MatchRec byDistance := ⟨fun a b => le_total a.distance b.distance⟩
  haveI : IsTrans MatchRec byDistance := ⟨fun a b c hab hbc => le_trans hab hbc⟩
  exact List.sorted_insertionSort byDistance ms

theorem perm_sortMatches (ms : List MatchRec) : (sortMatches ms).Perm ms :=
  List.perm_insertionSort byDistance ms

theorem mem_sortMatches {ms : List MatchRec} {m : MatchRec} :
    m ∈ sortMatches ms ↔ m ∈ ms :=
  (perm_sortMatches ms).mem_iff

theorem filter_orderedInsert_eq (a : MatchRec) (d : ℝ) (ha : a.distance = d) :
    ∀ l : List MatchRec,
      (List.orderedInsert byDistance a l).filter (fun m => decide (m.distance = d))
        = a :: l.filter (fun m => decide (m.distance = d))
  | [] => by simp [ha]
  | b :: l => by
    by_cases hab : byDistance a b
    · rw [List.orderedInsert, if_pos hab,
        List.filter_cons_of_pos (by simp [ha])]
    · rw [List.orderedInsert, if_neg hab]
      have hbd : ¬ (b.distance = d) := by
        intro hb
        exact hab (le_of_eq (ha.trans hb.symm))
      rw [List.filter_cons_of_neg (by simp [hbd]),
        filter_orderedInsert_eq a d ha l,
        List.filter_cons_of_neg (by simp [hbd])]

theorem filter_orderedInsert_ne (a : MatchRec) (d : ℝ) (ha : ¬ (a.distance = d)) :
    ∀ l : List MatchRec,
      (List.orderedInsert byDistance a l).filter (fun m => decide (m.distance = d))
        = l.filter (fun m => decide (m.distance = d))
  | [] => by simp [ha]
  | b :: l => by
    by_cases hab : byDistance a b
    · rw [List.orderedInsert, if_pos hab,
        List.filter_cons_of_neg (by simp [ha])]
    · rw [List.orderedInsert, if_neg hab, List.filter_cons, List.filter_cons,
        filter_orderedInsert_ne a d ha l]

theorem filter_sortMatches (d : ℝ) :
    ∀ ms : List MatchRec,
      (sortMatches ms).filter (fun m => decide (m.distance = d))
        = ms.filter (fun m => decide (m.distance = d))
  | [] => rfl
  | x :: ms => by
    show (List.orderedInsert byDistance x (sortMatches ms)).filter _ = _
    by_cases hx : x.distance = d
    · rw [filter_orderedInsert_eq x d hx, filter_sortMatches d ms,
        List.filter_cons_of_pos (by simp [hx])]
    · rw [filter_orderedInsert_ne x d hx, filter_sortMatches d ms,
        List.filter_cons_of_neg (by simp [hx])]

theorem find?_pairwise {α : Type} {R : α → α → Prop} {p : α → Bool}
    (l : List α) {a b : α} :
    l.Pairwise R → l.find? p = some a → b ∈ l → p b → a = b ∨ R a b := by
  induction l with
  | nil =>
    intro _ hfind
    simp at hfind
  | cons x xs ih =>
    intro hp hfind hb hpb
    rcases List.pairwise_cons.mp hp with ⟨hx, hxs⟩
    by_cases hpx : p x
    · rw [List.find?_cons_of_pos _ hpx] at hfind
      cases hfind
      rcases List.mem_cons.mp hb with rfl | hb'
      · exact Or.inl rfl
      · exact Or.inr (hx b hb')
    · rw [List.find?_cons_of_neg _ (by simpa using hpx)] at hfind
      rcases List.mem_cons.mp hb with rfl | hb'
      · exact absurd hpb hpx
      · exact ih hxs hfind hb' hpb

theorem firstDist_cons_ne (m : MatchRec) (rest : List MatchRec) (i : ℤ)
    (h : m.image_id ≠ i) : firstDist (m :: rest) i = firstDist rest i := by
  unfold firstDist
  rw [List.find?_cons_of_neg _ (by simp [h])]

theorem firstDist_cons_self (m : MatchRec) (rest : List MatchRec) :
    firstDist (m :: rest) m.image_id = some m.distance := by
  unfold firstDist
  rw [List.find?_cons_of_pos _ (by simp)]
  rfl

theorem firstDist_le_of_mem {ms : List MatchRec} (hs : ms.Sorted byDistance)
    {m : MatchRec} (hm : m ∈ ms) {d : ℝ}
    (hfd : firstDist ms m.image_id = some d) : d ≤ m.distance := by
  unfold firstDist at hfd
  rcases hopt : ms.find? (fun x => x.image_id == m.image_id) with _ | a
  · rw [hopt] at hfd
    simp at hfd
  · rw [hopt] at hfd
    simp only [Option.map_some'] at hfd
    have hda : d = a.distance := (Option.some.inj hfd).symm
    rcases find?_pairwise ms hs hopt hm (by simp) with rfl | hR
    · exact le_of_eq hda
    · rw [hda]
      exact hR

theorem pairwise_firstDist_dedup :
    ∀ (ms : List MatchRec), ms.Sorted byDistance →
      ∀ seen : List ℤ,
        (dedupFirstAux seen (ms.map MatchRec.image_id)).Pairwise
          (fun i j => ∀ di dj, firstDist ms i = some di →
            firstDist ms j = some dj → di ≤ dj)
  | [], _, seen => by simp [dedupFirstAux]
  | m :: rest, hs, seen => by
    have hrest : rest.Sorted byDistance := hs.of_cons
    have hhead : ∀ b ∈ rest, byDistance m b := List.rel_of_sorted_cons hs
    have ihrest := pairwise_firstDist_dedup rest hrest
    rw [List.map_cons]
    by_cases hm : m.image_id ∈ seen
    · rw [dedupFirstAux_cons_mem hm]
      refine List.Pairwise.imp_of_mem ?_ (ihrest seen)
      intro i j hi hj hij di dj hdi hdj
      have hi' : m.image_id ≠ i := by
        intro hc
        exact ((mem_dedupFirstAux _ _).mp hi).2 (hc ▸ hm)
      have hj' : m.image_id ≠ j := by
        intro hc
        exact ((mem_dedupFirstAux _ _).mp hj).2 (hc ▸ hm)
      rw [firstDist_cons_ne m rest i hi'] at hdi
      rw [firstDist_cons_ne m rest j hj'] at hdj
      exact hij di dj hdi hdj
    · rw [dedupFirstAux_cons_not_mem hm]
      refine List.pairwise_cons.mpr ⟨?_, ?_⟩
      · intro j hj di dj hdi hdj
        have hj' : m.image_id ≠ j := by
          intro hc
          exact ((mem_dedupFirstAux _ _).mp hj).2 (by rw [hc]; exact List.mem_cons_self _ _)
        rw [firstDist_cons_self] at hdi
        cases hdi
        rw [firstDist_cons_ne m rest j hj'] at hdj
        obtain ⟨a, hfind, rfl⟩ : ∃ a, rest.find? (fun x => x.image_id == j) = some a
            ∧ dj = a.distance := by
          unfold firstDist at hdj
          rcases hr : rest.find? (fun x => x.image_id == j) with _ | a
          · rw [hr] at hdj
            simp at hdj
          · rw [hr] at hdj
            simp only [Option.map_some'] at hdj
            exact ⟨a, hr, (Option.some.inj hdj).symm⟩
        exact hhead a (List.mem_of_find?_eq_some hfind)
      · refine List.Pairwise.imp_of_mem ?_ (ihrest (m.image_id :: seen))
        intro i j hi hj hij di dj hdi hdj
        have hi' : m.image_id ≠ i := by
          intro hc
          exact ((mem_dedupFirstAux _ _).mp hi).2 (by rw [hc]; exact List.mem_cons_self _ _)
        have hj' : m.image_id ≠ j := by
          intro hc
          exact ((mem_dedupFirstAux _ _).mp hj).2 (by rw [hc]; exact List.mem_cons_self _ _)
        rw [firstDist_cons_ne m rest i hi'] at hdi
        rw [firstDist_cons_ne m rest j hj'] at hdj
        exact hij di dj hdi hdj

theorem search_result_ids_eq (q : List ℝ) (tol : ℝ)
    (vectors : List FaceVector) (images : List EventImage) :
    search_result_ids q tol vectors images
      = (dedupFirst ((sortMatches (scanMatches q tol vectors)).map
            MatchRec.image_id)).filter
          (fun i => (images.map EventImage.id).contains i) := rfl

theorem mem_search_result_ids {q : List ℝ} {tol : ℝ}
    {vectors : List FaceVector} {images : List EventImage} {i : ℤ} :
    i ∈ search_result_ids q tol vectors images ↔
      (∃ v ∈ vectors, compare_single_face q v.encoding tol ∧ v.image_id = i)
      ∧ i ∈ images.map EventImage.id := by
  rw [search_result_ids_eq, List.mem_filter, mem_dedupFirst, List.mem_map]
  constructor
  · rintro ⟨⟨m, hm, rfl⟩, hcont⟩
    rw [mem_sortMatches] at hm
    rcases mem_scanMatches.mp hm with ⟨v, hv, hc, rfl⟩
    exact ⟨⟨v, hv, hc, rfl⟩, List.elem_iff.mp hcont⟩
  · rintro ⟨⟨v, hv, hc, rfl⟩, himg⟩
    refine ⟨⟨⟨v.image_id, calculate_face_distance q v.encoding⟩, ?_, rfl⟩,
      List.elem_iff.mpr himg⟩
    rw [mem_sortMatches]
    exact mem_scanMatches.mpr ⟨v, hv, hc, rfl⟩

/-! ### Claim C2 -/

/-- C2: the identifiers returned by the search are the matching records
stable-sorted ascending by distance (ties kept in scan order — expressed
by the filter characterization, which pins the sorted list down to the
unique order-preserving sorted permutation), projected to image ids and
deduplicated keeping first occurrences; each id appears at most once and
ids are ordered by their best (first, smallest) matching distance. -/
theorem C2_search_ranking (q : List ℝ) (tol : ℝ)
    (vectors : List FaceVector) (images : List EventImage)
    (hres : ∀ v ∈ vectors, v.image_id ∈ images.map EventImage.id) :
    search_result_ids q tol vectors images
        = dedupFirst ((sortMatches (scanMatches q tol vectors)).map MatchRec.image_id)
    ∧ (sortMatches (scanMatches q tol vectors)).Sorted byDistance
    ∧ List.Perm (sortMatches (scanMatches q tol vectors)) (scanMatches q tol vectors)
    ∧ (∀ d : ℝ, (sortMatches (scanMatches q tol vectors)).filter
          (fun m => decide (m.distance = d))
        = (scanMatches q tol vectors).filter (fun m => decide (m.distance = d)))
    ∧ (search_result_ids q tol vectors images).Nodup
    ∧ (search_result_ids q tol vectors images).Pairwise
        (fun i j => ∀ di dj,
          firstDist (sortMatches (scanMatches q tol vectors)) i = some di →
          firstDist (sortMatches (scanMatches q tol vectors)) j = some dj → di ≤ dj)
    ∧ (∀ m ∈ sortMatches (scanMatches q tol vectors), ∀ d,
        firstDist (sortMatches (scanMatches q tol vectors)) m.image_id = some d →
        d ≤ m.distance) := by
  refine ⟨?_, sorted_sortMatches _, perm_sortMatches _,
    fun d => filter_sortMatches d _, ?_, ?_, ?_⟩
  · rw [search_result_ids_eq]
    apply List.filter_eq_self.mpr
    intro i hi
    have hi' := mem_dedupFirst.mp hi
    rcases List.mem_map.mp hi' with ⟨m, hm, rfl⟩
    rw [mem_sortMatches] at hm
    rcases mem_scanMatches.mp hm with ⟨v, hv, _, rfl⟩
    exact List.elem_iff.mpr (hres v hv)
  · rw [search_result_ids_eq]
    exact (nodup_dedupFirstAux _ _).filter _
  · rw [search_result_ids_eq]
    exact (pairwise_firstDist_dedup _ (sorted_sortMatches _) []).filter _
  · intro m hm d hd
    exact firstDist_le_of_mem (sorted_sortMatches _) hm hd

/-- Witness for C2 on a concrete one-vector store whose image id resolves. -/
theorem C2_search_ranking_witness :
    (search_result_ids [1] 1 [⟨7, 0, [1]⟩] [⟨7, "x", "", "", 1, none⟩]).Nodup :=
  (C2_search_ranking [1] 1 [⟨7, 0, [1]⟩] [⟨7, "x", "", "", 1, none⟩]
    (by
      intro v hv
      rcases List.mem_singleton.mp hv with rfl
      simp)).2.2.2.2.1

/-! ### Claim C6 -/

/-- C6: `is_match` is monotone in the tolerance; consequently the ids a
search returns at tolerance 0.1 are a subset of those returned at
tolerance 1.0 on the same query and stores. -/
theorem C6_match_monotonic_subset :
    (∀ (a b : List ℝ) (t1 t2 : ℝ), t1 < t2 →
        compare_single_face a b t1 → compare_single_face a b t2)
    ∧ (∀ (q : List ℝ) (vectors : List FaceVector) (images : List EventImage),
        ∀ i ∈ search_result_ids q (1 / 10) vectors images,
          i ∈ search_result_ids q 1 vectors images) := by
  constructor
  · intro a b t1 t2 hlt hm
    exact le_trans hm (le_of_lt hlt)
  · intro q vectors images i hi
    rcases mem_search_result_ids.mp hi with ⟨⟨v, hv, hc, hid⟩, himg⟩
    refine mem_search_result_ids.mpr ⟨⟨v, hv, ?_, hid⟩, himg⟩
    exact le_trans hc (by norm_num)

/-- Witness for C6 at a concrete match below both tolerances. -/
theorem C6_match_monotonic_subset_witness :
    compare_single_face [1] [1] (3 / 10) :=
  C6_match_monotonic_subset.1 [1] [1] (1 / 5) (3 / 10) (by norm_num)
    (by
      unfold compare_single_face
      rw [calculate_face_distance_one_one]
      norm_num)

/-! ### Claim C1 -/

/-- C1: for every pair of (conformable) descriptor vectors `a` and `b`,
`calculate_face_distance a b` equals `1 - (a·b)/(|a||b|)` when both
Euclidean norms are nonzero, and equals `1` when either norm is zero, so
no division by zero ever occurs. -/
theorem C1_distance_formula (a b : List ℝ) (hlen : a.length = b.length) :
    ((norm2 a ≠ 0 ∧ norm2 b ≠ 0) →
        calculate_face_distance a b = 1 - dot a b / (norm2 a * norm2 b))
    ∧ ((norm2 a = 0 ∨ norm2 b = 0) → calculate_face_distance a b = 1) := by
  constructor
  · rintro ⟨h1, h2⟩
    unfold calculate_face_distance
    rw [if_neg (fun h => h hlen)]
    simp only []
    rw [if_neg (by push_neg; exact ⟨h1, h2⟩)]
  · intro h
    unfold calculate_face_distance
    rw [if_neg (fun hne => hne hlen)]
    simp only []
    rw [if_pos h]

/-- Witness for C1 at the concrete input `a = b = [1]`. -/
theorem C1_distance_formula_witness :
    calculate_face_distance [1] [1] = 1 - dot [1] [1] / (norm2 [1] * norm2 [1]) :=
  (C1_distance_formula [1] [1] rfl).1
    ⟨by rw [norm2_one]; norm_num, by rw [norm2_one]; norm_num⟩

/-! ### Claim C3 -/

theorem landmarksToList_length (lms : List Landmark) :
    (landmarksToList lms).length = 3 * lms.length := by
  induction lms with
  | nil => rfl
  | cons lm rest ih =>
    simp only [landmarksToList, List.length_cons, ih]
    ring

/-- C3 (code bug): every embedding produced by
`_generate_face_embedding` has dimensionality `3 * L`, where `L` is the
number of face-mesh landmarks, and `3 * L` can never equal the `128`
declared by the `FaceVector.encoding` column (`Vector(128)`).  The
spec's "D is 128" matches the schema declaration but not what the
extractor produces. -/
theorem C3_dimension_mismatch (lms : List Landmark) (e : List ℝ)
    (h : generate_face_embedding (some lms) = some e) :
    e.length = 3 * lms.length ∧ e.length ≠ faceVectorDim := by
  unfold generate_face_embedding at h
  simp only [] at h
  have hlen : e.length = 3 * lms.length := by
    split_ifs at h with hpos
    · cases h
      simp [landmarksToList_length]
    · cases h
      exact landmarksToList_length lms
  refine ⟨hlen, ?_⟩
  rw [hlen]
  unfold faceVectorDim
  omega

/-- Witness for C3: a one-landmark mesh output yields a 3-dimensional
embedding, which is not 128-dimensional. -/
theorem C3_dimension_mismatch_witness :
    generate_face_embedding (some [⟨0, 0, 0⟩]) = some [0, 0, 0] ∧
    ([0, 0, 0] : List ℝ).length ≠ faceVectorDim := by
  have hz : norm2 [(0 : ℝ), 0, 0] = 0 := by
    apply (norm2_eq_zero_iff _).mpr
    intro x hx
    simpa using hx
  have hnc : ¬ norm2 (landmarksToList [⟨0, 0, 0⟩]) > 0 := by
    have he : landmarksToList [⟨0, 0, 0⟩] = [(0 : ℝ), 0, 0] := rfl
    rw [he, hz]
    exact lt_irrefl 0
  have hgen : generate_face_embedding (some [⟨0, 0, 0⟩]) = some [(0 : ℝ), 0, 0] := by
    simp only [generate_face_embedding]
    rw [if_neg hnc]
    rfl
  exact ⟨hgen, (C3_dimension_mismatch [⟨0, 0, 0⟩] [0, 0, 0] hgen).2⟩

/-! ### Claim C5 -/

/-- C5: when the query image yields an empty descriptor sequence, the
search endpoint returns HTTP 400 and the orchestrator is never invoked:
the outcome is the same for every descriptor-store and image-table
contents, so no store scan can influence it and no partial results are
returned. -/
theorem C5_search_no_face_http400 :
    ∀ (tolerance : ℝ) (vectors : List FaceVector) (images : List EventImage),
      search_by_face [] tolerance vectors images = .httpError 400 := by
  intro tolerance vectors images
  rfl

/-! ### Lemmas about the ingestion pipeline -/

theorem mkFaceVectors_length (image_id : ℤ) :
    ∀ (i : ℕ) (l : List (List ℝ)), (mkFaceVectors image_id i l).length = l.length
  | _, [] => rfl
  | i, _ :: rest => by
    simp [mkFaceVectors, mkFaceVectors_length image_id (i + 1) rest]

theorem mkFaceVectors_map_index (image_id : ℤ) :
    ∀ (i : ℕ) (l : List (List ℝ)),
      (mkFaceVectors image_id i l).map FaceVector.face_index
        = (List.range' i l.length).map Int.ofNat
  | _, [] => rfl
  | i, _ :: rest => by
    rw [mkFaceVectors, List.map_cons, List.length_cons,
      List.range'_succ i rest.length 1, List.map_cons,
      mkFaceVectors_map_index image_id (i + 1) rest]
    rfl

theorem mkFaceVectors_map_encoding (image_id : ℤ) :
    ∀ (i : ℕ) (l : List (List ℝ)),
      (mkFaceVectors image_id i l).map FaceVector.encoding = l
  | _, [] => rfl
  | i, e :: rest => by
    rw [mkFaceVectors, List.map_cons, mkFaceVectors_map_encoding image_id (i + 1) rest]

theorem mkFaceVectors_image_id (image_id : ℤ) :
    ∀ (i : ℕ) (l : List (List ℝ)),
      ∀ r ∈ mkFaceVectors image_id i l, r.image_id = image_id
  | _, [], _, hr => by simp [mkFaceVectors] at hr
  | i, e :: rest, r, hr => by
    rw [mkFaceVectors, List.mem_cons] at hr
    rcases hr with rfl | hr'
    · rfl
    · exact mkFaceVectors_image_id image_id (i + 1) rest r hr'

theorem find?_map_id_preserving (f : EventImage → EventImage)
    (hf : ∀ img, (f img).id = img.id) (image_id : ℤ) :
    ∀ l : List EventImage,
      (l.map f).find? (fun img => img.id == image_id)
        = (l.find? (fun img => img.id == image_id)).map f
  | [] => rfl
  | x :: xs => by
    rw [List.map_cons]
    by_cases hx : (x.id == image_id) = true
    · rw [@List.find?_cons_of_pos _ (fun img => img.id == image_id) (f x) (xs.map f)
          (by show ((f x).id == image_id) = true; rw [hf x]; exact hx),
        @List.find?_cons_of_pos _ (fun img => img.id == image_id) x xs hx,
        Option.map_some']
    · rw [@List.find?_cons_of_neg _ (fun img => img.id == image_id) (f x) (xs.map f)
          (by show ¬ ((f x).id == image_id) = true; rw [hf x]; exact hx),
        @List.find?_cons_of_neg _ (fun img => img.id == image_id) x xs hx,
        find?_map_id_preserving f hf image_id xs]

theorem process_image_task_found_nil (db : DB) (image_id : ℤ) (img : EventImage)
    (hfind : db.images.find? (fun i => i.id == image_id) = some img) :
    process_image_task db image_id [] true
      = (.noFaces,
         { db with images := db.images.map (fun i =>
             if i.id = image_id then
               { i with face_count := 0, face_encodings := some [] }
             else i) }) := by
  unfold process_image_task
  rw [hfind]
  rfl

theorem process_image_task_found_cons (db : DB) (image_id : ℤ) (img : EventImage)
    (e : List ℝ) (es : List (List ℝ))
    (hfind : db.images.find? (fun i => i.id == image_id) = some img) :
    process_image_task db image_id (e :: es) true
      = (.success (e :: es).length,
         { images := db.images.map (fun i =>
             if i.id = image_id then
               { i with face_count := ((e :: es).length : ℤ),
                        face_encodings := some (e :: es) }
             else i),
           vectors := db.vectors ++ mkFaceVectors image_id 0 (e :: es) }) := by
  unfold process_image_task
  rw [hfind]
  rfl

theorem process_image_task_rollback (db : DB) (image_id : ℤ) (img : EventImage)
    (encodings : List (List ℝ))
    (hfind : db.images.find? (fun i => i.id == image_id) = some img) :
    process_image_task db image_id encodings false = (.error, db) := by
  unfold process_image_task
  rw [hfind]
  cases encodings <;> rfl

/-- After a committed run, the image row is found updated: its
`face_count` is the number of extracted encodings. -/
theorem process_image_task_find?_after (db : DB) (image_id : ℤ) (img : EventImage)
    (encodings : List (List ℝ))
    (hfind : db.images.find? (fun i => i.id == image_id) = some img) :
    (process_image_task db image_id encodings true).2.images.find?
        (fun i => i.id == image_id)
      = some (match encodings with
              | [] => { img with face_count := 0, face_encodings := some [] }
              | _ :: _ =>
                { img with
                  face_count := (encodings.length : ℤ)
                  face_encodings := some encodings }) := by
  have hid := @List.find?_some _ (fun i : EventImage => i.id == image_id)
    img db.images hfind
  have hid' : img.id = image_id := by simpa using hid
  cases encodings with
  | nil =>
    rw [process_image_task_found_nil db image_id img hfind]
    rw [find?_map_id_preserving _ (by intro i; split_ifs <;> rfl) image_id]
    rw [hfind, Option.map_some', if_pos hid']
  | cons e es =>
    rw [process_image_task_found_cons db image_id img e es hfind]
    rw [find?_map_id_preserving _ (by intro i; split_ifs <;> rfl) image_id]
    rw [hfind, Option.map_some', if_pos hid']

/-! ### Claim C4 -/

/-- C4: with the extraction yielding `N` descriptors, a committed
ingestion run appends exactly `N` descriptor rows for the image, with
sequential face indices `0..N-1` and the extracted encodings, and sets
the stored `face_count` to `N`; with `N = 0` it appends nothing, sets
`face_count` to `0`, and reports `no_faces` rather than an error. -/
theorem C4_ingestion_persists_sequential (db : DB) (image_id : ℤ)
    (encodings : List (List ℝ)) (img : EventImage)
    (hfind : db.images.find? (fun i => i.id == image_id) = some img) :
    (process_image_task db image_id encodings true).2.vectors
        = db.vectors ++ mkFaceVectors image_id 0 encodings
    ∧ (mkFaceVectors image_id 0 encodings).length = encodings.length
    ∧ (mkFaceVectors image_id 0 encodings).map FaceVector.face_index
        = (List.range encodings.length).map Int.ofNat
    ∧ (mkFaceVectors image_id 0 encodings).map FaceVector.encoding = encodings
    ∧ (∀ r ∈ mkFaceVectors image_id 0 encodings, r.image_id = image_id)
    ∧ faceCountOf (process_image_task db image_id encodings true).2 image_id
        = some (encodings.length : ℤ)
    ∧ (process_image_task db image_id encodings true).1
        = (match encodings with
           | [] => TaskResult.noFaces
           | _ :: _ => TaskResult.success encodings.length) := by
  refine ⟨?_, mkFaceVectors_length image_id 0 encodings,
    by rw [mkFaceVectors_map_index image_id 0 encodings, List.range_eq_range'],
    mkFaceVectors_map_encoding image_id 0 encodings,
    mkFaceVectors_image_id image_id 0 encodings, ?_, ?_⟩
  · cases encodings with
    | nil =>
      rw [process_image_task_found_nil db image_id img hfind]
      simp [mkFaceVectors]
    | cons e es =>
      rw [process_image_task_found_cons db image_id img e es hfind]
  · unfold faceCountOf
    rw [process_image_task_find?_after db image_id img encodings hfind]
    cases encodings <;> simp
  · cases encodings with
    | nil => rw [process_image_task_found_nil db image_id img hfind]
    | cons e es => rw [process_image_task_found_cons db image_id img e es hfind]

/-- Witness for C4 on a concrete two-face extraction. -/
theorem C4_ingestion_persists_sequential_witness :
    faceCountOf
      (process_image_task ⟨[⟨1, "a", "", "", 0, none⟩], []⟩ 1 [[1], [2]] true).2 1
      = some 2 :=
  (C4_ingestion_persists_sequential ⟨[⟨1, "a", "", "", 0, none⟩], []⟩ 1
    [[1], [2]] ⟨1, "a", "", "", 0, none⟩ rfl).2.2.2.2.2.1

/-! ### Claim C7 -/

/-- C7 counterexample: ingestion is purely additive.  Re-running
`process_image_task` on the same one-face image duplicates the descriptor
row: after the first run the image owns 1 row, after the second it owns
2, contradicting "the store holds no more descriptor records for that
image after the second run than after the first". -/
theorem C7_reingestion_duplicates_rows :
    (vectorsFor (process_image_task
        (process_image_task ⟨[⟨1, "a", "", "", 0, none⟩], []⟩ 1 [[1]] true).2
        1 [[1]] true).2 1).length = 2
    ∧ (vectorsFor (process_image_task ⟨[⟨1, "a", "", "", 0, none⟩], []⟩
        1 [[1]] true).2 1).length = 1
    ∧ ¬ (2 ≤ 1) :=
  ⟨rfl, rfl, by omega⟩

/-- C7 amended: re-running a committed ingestion on the same image and
encodings yields the same final `face_count`, but descriptor insertion is
purely additive — the second run adds `N` more rows, so the image owns
`N` more descriptor rows than after the first run. -/
theorem C7_face_count_stable_rows_additive (db : DB) (image_id : ℤ)
    (encodings : List (List ℝ)) (img : EventImage)
    (hfind : db.images.find? (fun i => i.id == image_id) = some img) :
    faceCountOf (process_image_task db image_id encodings true).2 image_id
        = some (encodings.length : ℤ)
    ∧ faceCountOf
        (process_image_task (process_image_task db image_id encodings true).2
          image_id encodings true).2 image_id
        = some (encodings.length : ℤ)
    ∧ (vectorsFor
        (process_image_task (process_image_task db image_id encodings true).2
          image_id encodings true).2 image_id).length
        = (vectorsFor (process_image_task db image_id encodings true).2
            image_id).length + encodings.length := by
  have h1 := process_image_task_find?_after db image_id img encodings hfind
  have hfc1 : faceCountOf (process_image_task db image_id encodings true).2 image_id
      = some (encodings.length : ℤ) := by
    unfold faceCountOf
    rw [h1]
    cases encodings <;> simp
  have hfc2 : faceCountOf
      (process_image_task (process_image_task db image_id encodings true).2
        image_id encodings true).2 image_id
      = some (encodings.length : ℤ) := by
    unfold faceCountOf
    rw [process_image_task_find?_after _ image_id _ encodings h1]
    cases encodings <;> simp
  refine ⟨hfc1, hfc2, ?_⟩
  have hnew : ∀ (dbx : DB) (imgx : EventImage),
      dbx.images.find? (fun i => i.id == image_id) = some imgx →
      (process_image_task dbx image_id encodings true).2.vectors
        = dbx.vectors ++ mkFaceVectors image_id 0 encodings := by
    intro dbx imgx hx
    cases encodings with
    | nil =>
      rw [process_image_task_found_nil dbx image_id imgx hx]
      simp [mkFaceVectors]
    | cons e es =>
      rw [process_image_task_found_cons dbx image_id imgx e es hx]
  have hfilter :
      (mkFaceVectors image_id 0 encodings).filter (fun v => v.image_id == image_id)
        = mkFaceVectors image_id 0 encodings := by
    apply List.filter_eq_self.mpr
    intro r hr
    simp [mkFaceVectors_image_id image_id 0 encodings r hr]
  unfold vectorsFor
  rw [hnew _ _ h1, List.filter_append, hfilter, List.length_append,
    mkFaceVectors_length]

/-- Witness for the amended C7 on a concrete one-face image. -/
theorem C7_face_count_stable_rows_additive_witness :
    (vectorsFor (process_image_task
        (process_image_task ⟨[⟨1, "a", "", "", 0, none⟩], []⟩ 1 [[1]] true).2
        1 [[1]] true).2 1).length
      = (vectorsFor (process_image_task ⟨[⟨1, "a", "", "", 0, none⟩], []⟩
          1 [[1]] true).2 1).length + 1 :=
  (C7_face_count_stable_rows_additive ⟨[⟨1, "a", "", "", 0, none⟩], []⟩ 1
    [[1]] ⟨1, "a", "", "", 0, none⟩ rfl).2.2

/-! ### Claim C8 -/

/-- C8: when the commit raises, the worker's `except` handler rolls the
session back: the task reports an error outcome and the store — in
particular the image's `face_count` — is unchanged; likewise the inline
path's caught commit failure records a failed status and leaves the
committed store untouched. -/
theorem C8_failure_leaves_face_count (db : DB) (image_id : ℤ)
    (encodings : List (List ℝ)) (img : EventImage)
    (hfind : db.images.find? (fun i => i.id == image_id) = some img) :
    (process_image_task db image_id encodings false).1 = .error
    ∧ (process_image_task db image_id encodings false).2 = db
    ∧ faceCountOf (process_image_task db image_id encodings false).2 image_id
        = faceCountOf db image_id
    ∧ (∀ (image_id' : ℤ) (encs : List (List ℝ)), encs ≠ [] →
        inlineFaceProcessing db image_id' encs false = (.processingFailed, db)) := by
  have h := process_image_task_rollback db image_id img encodings hfind
  refine ⟨by rw [h], by rw [h], by rw [h], ?_⟩
  intro image_id' encs hne
  match encs, hne with
  | e :: es, _ => rfl

/-- Witness for C8 on a concrete store. -/
theorem C8_failure_leaves_face_count_witness :
    (process_image_task ⟨[⟨1, "a", "", "", 0, none⟩], []⟩ 1 [[1]] false).2
      = ⟨[⟨1, "a", "", "", 0, none⟩], []⟩ :=
  (C8_failure_leaves_face_count ⟨[⟨1, "a", "", "", 0, none⟩], []⟩ 1 [[1]]
    ⟨1, "a", "", "", 0, none⟩ rfl).2.1

/-! ### Claim C10 -/

/-- C10: every embedding produced by the extractor is L2-normalized: it
has Euclidean norm 1 or is the zero vector; consequently the cosine
distance of two unit-norm stored descriptors is `1` minus their dot
product. -/
theorem C10_normalized_embeddings :
    (∀ (mlms : Option (List Landmark)) (e : List ℝ),
        generate_face_embedding mlms = some e →
        norm2 e = 1 ∨ ∀ x ∈ e, x = 0)
    ∧ (∀ u v : List ℝ, u.length = v.length → norm2 u = 1 → norm2 v = 1 →
        calculate_face_distance u v = 1 - dot u v) := by
  constructor
  · intro mlms e h
    match mlms with
    | none => simp [generate_face_embedding] at h
    | some lms =>
      unfold generate_face_embedding at h
      simp only [] at h
      split_ifs at h with hpos
      · cases h
        exact Or.inl (norm2_map_div_self _ hpos)
      · cases h
        have h0 : norm2 (landmarksToList lms) = 0 :=
          le_antisymm (not_lt.mp hpos) (norm2_nonneg _)
        exact Or.inr ((norm2_eq_zero_iff _).mp h0)
  · intro u v hlen hu hv
    unfold calculate_face_distance
    rw [if_neg (fun h => h hlen)]
    simp only []
    rw [if_neg (by rw [hu, hv]; norm_num)]
    rw [hu, hv]
    norm_num

/-- Witness for C10 at concrete unit vectors `u = v = [1]`. -/
theorem C10_normalized_embeddings_witness :
    calculate_face_distance [1] [1] = 1 - dot [1] [1] :=
  C10_normalized_embeddings.2 [1] [1] rfl norm2_one norm2_one

/-! ### Claim C9 -/

/-- C9 counterexample: two files with the same filename in one batch.
The second file's image-record creation violates the `filename` unique
constraint outside the face-processing `try`, the exception aborts the
whole endpoint, and no per-file entry is returned for either file —
contradicting "every file in the batch gets an entry in the response". -/
theorem C9_creation_failure_aborts_batch :
    (upload_images (fun _ : ℕ => ([] : List (List ℝ))) (fun _ => true)
        ⟨[], []⟩ [⟨"a.jpg", 0⟩, ⟨"a.jpg", 1⟩]).1 = Except.error ()
    ∧ ∀ entries : List UploadEntry,
        (upload_images (fun _ : ℕ => ([] : List (List ℝ))) (fun _ => true)
          ⟨[], []⟩ [⟨"a.jpg", 0⟩, ⟨"a.jpg", 1⟩]).1 ≠ Except.ok entries := by
  have he : (upload_images (fun _ : ℕ => ([] : List (List ℝ))) (fun _ => true)
      ⟨[], []⟩ [⟨"a.jpg", 0⟩, ⟨"a.jpg", 1⟩]).1 = Except.error () := rfl
  refine ⟨he, ?_⟩
  intro entries h
  exact Except.noConfusion (he.symm.trans h)

theorem inlineFaceProcessing_filenames (db : DB) (image_id : ℤ)
    (encodings : List (List ℝ)) (ok : Bool) :
    (inlineFaceProcessing db image_id encodings ok).2.images.map EventImage.filename
      = db.images.map EventImage.filename := by
  unfold inlineFaceProcessing
  cases encodings with
  | nil => rfl
  | cons e es =>
    cases ok with
    | false => rfl
    | true =>
      show (db.images.map (fun img =>
          if img.id = image_id then
            { img with face_count := ((e :: es).length : ℤ) }
          else img)).map EventImage.filename
        = db.images.map EventImage.filename
      rw [List.map_map]
      apply List.map_congr_left
      intro img _
      simp only [Function.comp]
      split_ifs <;> rfl

theorem inlineFaceProcessing_status (db : DB) (image_id : ℤ)
    (encodings : List (List ℝ)) (ok : Bool) :
    (inlineFaceProcessing db image_id encodings ok).1
      = (match encodings with
         | [] => UploadStatus.noFacesFound
         | _ :: _ =>
           if ok then UploadStatus.processed encodings.length
           else UploadStatus.processingFailed) := by
  unfold inlineFaceProcessing
  cases encodings with
  | nil => rfl
  | cons e es => cases ok <;> rfl

theorem createImage_filenames {β : Type} (db : DB) (file : UploadFile β) :
    (createImage db file).images.map EventImage.filename
      = db.images.map EventImage.filename ++ [file.filename] := by
  simp [createImage]

theorem upload_images_cons_no_conflict {β : Type} (extract : β → List (List ℝ))
    (faceOk : β → Bool) (db : DB) (file : UploadFile β)
    (rest : List (UploadFile β))
    (hcond : ¬ (db.images.any (fun img => img.filename == file.filename) = true))
    (entries2 : List UploadEntry)
    (hok : (upload_images extract faceOk
        (inlineFaceProcessing (createImage db file) (freshId db)
          (extract file.data) (faceOk file.data)).2 rest).1 = Except.ok entries2) :
    (upload_images extract faceOk db (file :: rest)).1
      = Except.ok (uploadEntryOf (freshId db) file.filename
          (inlineFaceProcessing (createImage db file) (freshId db)
            (extract file.data) (faceOk file.data)).1 :: entries2) := by
  have hp : upload_images extract faceOk
      (inlineFaceProcessing (createImage db file) (freshId db)
        (extract file.data) (faceOk file.data)).2 rest
      = (Except.ok entries2,
         (upload_images extract faceOk
            (inlineFaceProcessing (createImage db file) (freshId db)
              (extract file.data) (faceOk file.data)).2 rest).2) := by
    rw [← hok]
  rw [upload_images, if_neg hcond, hp]

/-- C9 amended: when every filename in the batch is distinct and not
already stored (so every image-record creation commit succeeds), each
file gets exactly one response entry, in order, whose status is
determined by that file's own extraction and face-processing outcome —
per-file face-processing failures are isolated and do not abort the
batch.  (A creation failure, by contrast, aborts the whole request: see
the counterexample.) -/
theorem C9_face_processing_isolated {β : Type} (extract : β → List (List ℝ))
    (faceOk : β → Bool) (db : DB) (files : List (UploadFile β))
    (hnodup : (files.map UploadFile.filename).Nodup)
    (hfresh : ∀ f ∈ files, ∀ img ∈ db.images, img.filename ≠ f.filename) :
    ∃ entries,
      (upload_images extract faceOk db files).1 = Except.ok entries
      ∧ entries.map UploadEntry.filename = files.map UploadFile.filename
      ∧ ∀ pr ∈ entries.zip files,
          pr.1.status =
            (match extract pr.2.data with
             | [] => UploadStatus.noFacesFound
             | _ :: _ =>
               if faceOk pr.2.data then
                 UploadStatus.processed (extract pr.2.data).length
               else UploadStatus.processingFailed) := by
  induction files generalizing db with
  | nil => exact ⟨[], rfl, rfl, by simp⟩
  | cons f rest ih =>
    have hnoconf : db.images.any (fun img => img.filename == f.filename) = false := by
      rw [List.any_eq_false]
      intro img himg
      simp only [beq_iff_eq]
      exact hfresh f (List.mem_cons_self f rest) img himg
    have hcond : ¬ (db.images.any (fun img => img.filename == f.filename) = true) := by
      rw [hnoconf]
      exact Bool.false_ne_true
    have hfresh' : ∀ f' ∈ rest, ∀ img ∈
        (inlineFaceProcessing (createImage db f) (freshId db)
          (extract f.data) (faceOk f.data)).2.images,
        img.filename ≠ f'.filename := by
      intro f' hf' img himg
      have himgname : img.filename ∈
          (inlineFaceProcessing (createImage db f) (freshId db)
            (extract f.data) (faceOk f.data)).2.images.map EventImage.filename :=
        List.mem_map_of_mem EventImage.filename himg
      rw [inlineFaceProcessing_filenames, createImage_filenames,
        List.mem_append] at himgname
      rcases himgname with hold | hnew
      · rcases List.mem_map.mp hold with ⟨img0, himg0, heq⟩
        rw [← heq]
        exact hfresh f' (List.mem_cons_of_mem f hf') img0 himg0
      · rw [List.mem_singleton] at hnew
        intro hcontra
        have hnotin : f.filename ∉ rest.map UploadFile.filename :=
          (List.nodup_cons.mp hnodup).1
        apply hnotin
        rw [hnew.symm.trans hcontra]
        exact List.mem_map_of_mem UploadFile.filename hf'
    obtain ⟨entries2, hok, hnames, hstat⟩ :=
      ih (inlineFaceProcessing (createImage db f) (freshId db)
            (extract f.data) (faceOk f.data)).2
        hnodup.of_cons hfresh'
    refine ⟨uploadEntryOf (freshId db) f.filename
        (inlineFaceProcessing (createImage db f) (freshId db)
          (extract f.data) (faceOk f.data)).1 :: entries2,
      upload_images_cons_no_conflict extract faceOk db f rest hcond entries2 hok,
      ?_, ?_⟩
    · rw [List.map_cons, List.map_cons, hnames]
      rfl
    · intro pr hpr
      rw [List.zip_cons_cons, List.mem_cons] at hpr
      rcases hpr with rfl | hpr'
      · show (uploadEntryOf (freshId db) f.filename
            (inlineFaceProcessing (createImage db f) (freshId db)
              (extract f.data) (faceOk f.data)).1).status = _
        rw [show (uploadEntryOf (freshId db) f.filename
            (inlineFaceProcessing (createImage db f) (freshId db)
              (extract f.data) (faceOk f.data)).1).status
            = (inlineFaceProcessing (createImage db f) (freshId db)
                (extract f.data) (faceOk f.data)).1 from rfl]
        rw [inlineFaceProcessing_status]
      · exact hstat pr hpr'

/-- Witness for the amended C9: a two-file batch with distinct fresh
filenames, whose face processing fails for every file, still yields one
entry per file. -/
theorem C9_face_processing_isolated_witness :
    ∃ entries,
      (upload_images (fun _ : ℕ => ([] : List (List ℝ))) (fun _ => false)
          ⟨[], []⟩ [⟨"a.jpg", 0⟩, ⟨"b.jpg", 1⟩]).1 = Except.ok entries
      ∧ entries.map UploadEntry.filename = ["a.jpg", "b.jpg"] := by
  obtain ⟨entries, h1, h2, _⟩ := C9_face_processing_isolated
    (fun _ : ℕ => ([] : List (List ℝ))) (fun _ => false) ⟨[], []⟩
    [⟨"a.jpg", 0⟩, ⟨"b.jpg", 1⟩] (by decide) (by simp)
  exact ⟨entries, h1, h2.trans rfl⟩

end FaceSearch
